import Mathlib

/-!
Verification of the currency-converter program `global_currency_calibrator.py`.

The program is embedded shallowly:
* Python `float` amounts and rates become `ℚ` (exact rational arithmetic);
  the IEEE NaN produced by the guarded division is modelled by a dedicated
  constructor of `RateVal`.
* HTTP responses become oracle values passed to the functions: a transport
  or status failure (`requests` exception / `raise_for_status`) is
  `Except.error ()`, a decoded JSON body is `Except.ok` of a record holding
  the optional `rates` field as an association list (Python dicts with
  unique keys).
* The Tk text widget becomes a list of structured output lines; the network
  boundary is made observable by returning the number of HTTP GETs issued.
* Python's `str.strip`, `str.upper` and `str.isalpha` are modelled for the
  Basic Latin and Latin-1 ranges (`pyStrip`, `pyUpper`, `pyIsAlpha`); the
  special-cased expansion `ß → SS` of full Unicode case mapping is outside
  the Latin-1 simple-uppercase range modelled here.
-/

namespace Calibrator

/-- The exceptions the program distinguishes: `ValueError` raised by the
validation helpers (`float`, `int`, `normalize_ccy`, the `days < 1` check),
`requests` transport/status failures, and `ValueError` raised on well-formed
responses missing expected fields. -/
inductive AppError
  | validationError
  | networkError
  | dataError
deriving DecidableEq, Repr

/-- A Python float that is either an ordinary number or `float("nan")`. -/
inductive RateVal
  | nan
  | val (q : ℚ)
deriving DecidableEq, Repr

/-- First-match association-list lookup, the model of `dict[k]` / `dict.get(k)`
on a Python dict represented as a key-value list with unique keys. -/
def lookup? {α : Type} : List (String × α) → String → Option α
  | [], _ => none
  | (k, v) :: rest, key => if k = key then some v else lookup? rest key

/-- Decoded JSON body of the `/latest` endpoint: `data.get("rates", {})`
reads the optional `rates` object, an association from currency code to
converted value. -/
structure ConvRespData where
  rates : Option (List (String × ℚ))
deriving DecidableEq

/-- Decoded JSON body of the date-range endpoint: the optional `rates`
object maps each ISO day to a per-day payload (currency code → rate). -/
structure TsRespData where
  rates : Option (List (String × List (String × ℚ)))

/-- Embedding of `fetch_conversion(amount, base, target)` (lines 15–39).
The second component counts HTTP GETs issued.  `base == target`
short-circuits to the identity conversion before any request; otherwise the
response oracle is consulted: transport/status failure raises a network
error, a body whose `rates` lacks the target raises a data error, and a
good body yields `converted = rates[target]` with
`rate = converted / amount if amount != 0 else float("nan")`. -/
def fetch_conversion (amount : ℚ) (base target : String)
    (resp : Except Unit ConvRespData) :
    Except AppError (ℚ × RateVal) × Nat :=
  if base = target then
    (Except.ok (amount, RateVal.val 1), 0)
  else
    match resp with
    | Except.error _ => (Except.error AppError.networkError, 1)
    | Except.ok data =>
      let rates := data.rates.getD []
      match lookup? rates target with
      | none => (Except.error AppError.dataError, 1)
      | some converted =>
        let rate := if amount ≠ 0 then RateVal.val (converted / amount)
                    else RateVal.nan
        (Except.ok (converted, rate), 1)

/-- Lexicographic (code-point) comparison of character lists, the order in
which Python compares the ISO date strings when `sorted` is applied to the
day keys. -/
def charListLe : List Char → List Char → Bool
  | [], _ => true
  | _ :: _, [] => false
  | a :: as, b :: bs =>
    if a < b then true else if b < a then false else charListLe as bs

/-- Lexicographic order on strings (Python string comparison). -/
def strLe (a b : String) : Prop := charListLe a.data b.data = true

/-- Strict lexicographic order on strings. -/
def strLt (a b : String) : Prop := strLe a b ∧ a ≠ b

instance : DecidableRel strLe := fun a b =>
  inferInstanceAs (Decidable (charListLe a.data b.data = true))

/-- Embedding of `fetch_timeseries(base, target, days)` (lines 42–69).
The GET is always issued (count 1).  A transport/status failure raises a
network error; a body without a `rates` field raises a data error;
otherwise the day keys are sorted (Python sorts the ISO date strings
lexicographically), each day's payload is filtered to the requested target
code, days lacking it are dropped, and an empty filtered result raises a
data error. -/
def fetch_timeseries (target : String)
    (resp : Except Unit TsRespData) :
    Except AppError (List (String × ℚ)) × Nat :=
  match resp with
  | Except.error _ => (Except.error AppError.networkError, 1)
  | Except.ok data =>
    match data.rates with
    | none => (Except.error AppError.dataError, 1)
    | some rmap =>
      let days := List.insertionSort strLe (rmap.map Prod.fst)
      let rates := days.filterMap (fun day =>
        (lookup? rmap day).bind (fun payload =>
          (lookup? payload target).map (fun v => (day, v))))
      if rates.isEmpty then (Except.error AppError.dataError, 1)
      else (Except.ok rates, 1)

/-- `sum(values) / len(values)` — the plain arithmetic mean, the notion the
specification's average rule is stated against. -/
def arithMean (values : List ℚ) : ℚ :=
  values.sum / (values.length : ℚ)

/-- Embedding of the average computation of `CurrencyApp.on_convert`
(lines 191–202): the last key of the fetched series is compared with
today's ISO date; if it matches and more than one value exists the average
drops the last value, otherwise it is over all values. -/
def computeAvg (rates : List (String × ℚ)) (today : String) : ℚ :=
  let dates_sorted := rates.map Prod.fst
  let is_today_included : Bool :=
    match dates_sorted.getLast? with
    | some last_day => last_day == today
    | none => false
  let values := rates.map Prod.snd
  if is_today_included ∧ values.length > 1 then
    values.dropLast.sum / ((values.length - 1 : ℕ) : ℚ)
  else
    values.sum / (values.length : ℚ)

/-- Model of Python `str.strip()`: drop whitespace characters from both
ends of the string. -/
def pyStrip (s : String) : String :=
  String.mk
    (((s.data.dropWhile Char.isWhitespace).reverse.dropWhile
      Char.isWhitespace).reverse)

/-- Model of Python `str.isalpha()` on a character, for the Basic Latin and
Latin-1 ranges: ASCII letters, plus the Latin-1 letters U+00C0–U+00FF
excluding the multiplication and division signs U+00D7 and U+00F7. -/
def pyIsAlpha (c : Char) : Bool :=
  c.isAlpha ||
    (0xC0 ≤ c.toNat && c.toNat ≤ 0xFF && c.toNat ≠ 0xD7 && c.toNat ≠ 0xF7)

/-- Model of Python `str.isalpha()` on a string: true iff the string is
non-empty and every character is alphabetic. -/
def pyIsAlphaStr (s : String) : Bool :=
  !s.data.isEmpty && s.data.all pyIsAlpha

/-- Model of Python `str.upper()` on a character, for the Basic Latin and
Latin-1 ranges: ASCII lowering via `Char.toUpper`, and the simple Latin-1
mapping U+00E0–U+00FE → U+00C0–U+00DE (skipping the division sign U+00F7). -/
def pyUpperChar (c : Char) : Char :=
  if 0xE0 ≤ c.toNat ∧ c.toNat ≤ 0xFE ∧ c.toNat ≠ 0xF7 then
    Char.ofNat (c.toNat - 0x20)
  else c.toUpper

/-- Model of Python `str.upper()` on a string (character-wise simple
mapping on the modelled ranges). -/
def pyUpper (s : String) : String := String.mk (s.data.map pyUpperChar)

/-- Embedding of `normalize_ccy(ccy)` (lines 115–119): strip, upper-case,
then reject unless the result has length 3 and is alphabetic. -/
def normalize_ccy (ccy : String) : Except AppError String :=
  let c := pyUpper (pyStrip ccy)
  if c.length ≠ 3 ∨ pyIsAlphaStr c = false then
    Except.error AppError.validationError
  else Except.ok c

/-- One line of the Tk text widget, by content.  Numeric formatting
(`:.4f`, `:.6f`) is presentation; the line kinds and the values shown are
what the pipeline commits. -/
inductive OutputLine
  | separator
  | amountLine (amount : ℚ) (base : String)
  | rateLine (base : String) (rate : RateVal) (target : String)
  | convertedLine (converted : ℚ) (target : String)
  | avgLine (days : Int) (avg : ℚ) (target base : String)
  | closeCharts
deriving DecidableEq, Repr

/-- The five lines written to the freshly cleared text widget right after
the first fetch succeeds (lines 180–185). -/
def headerLines (amount : ℚ) (base : String) (rate : RateVal)
    (target : String) (converted : ℚ) : List OutputLine :=
  [OutputLine.separator,
   OutputLine.amountLine amount base,
   OutputLine.rateLine base rate target,
   OutputLine.convertedLine converted target,
   OutputLine.separator]

/-- Which message box a caught exception produces (lines 213–216):
`requests` exceptions get the dedicated network dialog, everything else the
generic error dialog. -/
inductive Dialog
  | networkBox
  | genericBox
deriving DecidableEq, Repr

/-- Dispatch of a raised error to its dialog. -/
def dialogOf : AppError → Dialog
  | AppError.networkError => Dialog.networkBox
  | _ => Dialog.genericBox

/-- The environment of one button press: the library parsers (`float`,
`int`) as oracles, the two HTTP response oracles, and today's ISO date. -/
structure Env where
  parseFloat : String → Option ℚ
  parseInt : String → Option Int
  convResp : Except Unit ConvRespData
  tsResp : Except Unit TsRespData
  today : String

/-- The four text fields read by `on_convert`. -/
structure Inputs where
  amount_str : String
  base_str : String
  target_str : String
  days_str : String

/-- Outcome of one `on_convert` run: the final text-widget content, the
number of HTTP GETs issued, and the error dialog shown if any. -/
structure ConvertResult where
  output : List OutputLine
  networkCalls : Nat
  dialog : Option Dialog
deriving DecidableEq, Repr

/-- `int(days_str) if days_str else 30` after stripping (line 173–174). -/
def parsedDays (env : Env) (inp : Inputs) : Option Int :=
  let ds := pyStrip inp.days_str
  if ds = "" then some 30 else env.parseInt ds

/-- Embedding of `CurrencyApp.on_convert` (lines 168–216) on an initial
text-widget content `st`.  Validation runs first (amount, base, target,
days); any `ValueError` there aborts with the generic dialog and no
network call.  Then the conversion fetch runs; on success the widget is
cleared and the five header lines written, then the timeseries fetch runs;
its failure is caught after the header is already committed.  On full
success the average line and the closing note are appended. -/
def on_convert (env : Env) (inp : Inputs) (st : List OutputLine) :
    ConvertResult :=
  match env.parseFloat inp.amount_str with
  | none => ⟨st, 0, some Dialog.genericBox⟩
  | some amount =>
    match normalize_ccy inp.base_str with
    | Except.error _ => ⟨st, 0, some Dialog.genericBox⟩
    | Except.ok base =>
      match normalize_ccy inp.target_str with
      | Except.error _ => ⟨st, 0, some Dialog.genericBox⟩
      | Except.ok target =>
        match parsedDays env inp with
        | none => ⟨st, 0, some Dialog.genericBox⟩
        | some days =>
          if days < 1 then ⟨st, 0, some Dialog.genericBox⟩
          else
            match fetch_conversion amount base target env.convResp with
            | (Except.error e, n₁) => ⟨st, n₁, some (dialogOf e)⟩
            | (Except.ok (converted, today_rate), n₁) =>
              let header := headerLines amount base today_rate target converted
              match fetch_timeseries target env.tsResp with
              | (Except.error e, n₂) => ⟨header, n₁ + n₂, some (dialogOf e)⟩
              | (Except.ok rates, n₂) =>
                let avg := computeAvg rates env.today
                ⟨header ++ [OutputLine.avgLine days avg target base,
                            OutputLine.closeCharts],
                 n₁ + n₂, none⟩

end Calibrator

deriving instance DecidableEq for Except

namespace Calibrator

theorem lookup?_mem {α : Type} {l : List (String × α)} {k : String} {v : α}
    (h : lookup? l k = some v) : (k, v) ∈ l := by
  induction l with
  | nil => simp [lookup?] at h
  | cons kv rest ih =>
    obtain ⟨k', v'⟩ := kv
    by_cases hk : k' = k
    · subst hk
      simp [lookup?] at h
      subst h
      exact List.mem_cons_self _ _
    · simp only [lookup?, if_neg hk] at h
      exact List.mem_cons_of_mem _ (ih h)

theorem mem_keys_of_lookup? {α : Type} {l : List (String × α)} {k : String}
    {v : α} (h : lookup? l k = some v) : k ∈ l.map Prod.fst :=
  List.mem_map.mpr ⟨(k, v), lookup?_mem h, rfl⟩

theorem map_fst_filterMap_sublist {β : Type}
    (f : String → Option (String × β))
    (hf : ∀ d p, f d = some p → p.1 = d) (l : List String) :
    ((l.filterMap f).map Prod.fst).Sublist l := by
  induction l with
  | nil => simp
  | cons a t ih =>
    cases hfa : f a with
    | none =>
      simp only [List.filterMap_cons, hfa]
      exact ih.cons a
    | some p =>
      simp only [List.filterMap_cons, hfa, List.map_cons]
      rw [hf a p hfa]
      exact ih.cons₂ a

/-- C4: for every amount and every pair of equal currency codes, the
conversion short-circuits to `(amount, 1.0)` and issues no HTTP request,
whatever the response oracle would have answered. -/
theorem c4_identity_no_network (amount : ℚ) (b : String)
    (resp : Except Unit ConvRespData) :
    fetch_conversion amount b b resp = (Except.ok (amount, RateVal.val 1), 0) := by
  simp [fetch_conversion]

/-- C5: every successful conversion with a non-zero amount returns a rate
equal to the converted value divided by the amount (exactly, in ℚ). -/
theorem c5_rate_is_converted_div_amount (amount : ℚ) (base target : String)
    (resp : Except Unit ConvRespData) (converted : ℚ) (rate : RateVal)
    (n : ℕ)
    (hok : fetch_conversion amount base target resp =
      (Except.ok (converted, rate), n))
    (ha : amount ≠ 0) :
    rate = RateVal.val (converted / amount) := by
  by_cases hbt : base = target
  · rw [fetch_conversion.eq_def, if_pos hbt] at hok
    simp only [Prod.mk.injEq, Except.ok.injEq] at hok
    obtain ⟨⟨hc, hr⟩, -⟩ := hok
    subst hc
    rw [← hr, div_self ha]
  · rw [fetch_conversion.eq_def, if_neg hbt] at hok
    cases resp with
    | error e => simp at hok
    | ok data =>
      simp only at hok
      cases hlk : lookup? (data.rates.getD []) target with
      | none => rw [hlk] at hok; simp at hok
      | some v =>
        rw [hlk] at hok
        simp only [if_pos ha, Prod.mk.injEq, Except.ok.injEq] at hok
        obtain ⟨⟨hc, hr⟩, -⟩ := hok
        subst hc
        exact hr.symm

/-- Witness for C5 at a concrete successful non-identity conversion. -/
theorem c5_rate_is_converted_div_amount_witness :
    RateVal.val 83 = RateVal.val (166 / 2) := by
  refine c5_rate_is_converted_div_amount 2 "USD" "INR"
    (Except.ok ⟨some [("INR", 166)]⟩) 166 (RateVal.val 83) 1 ?_ (by norm_num)
  norm_num [fetch_conversion, lookup?]
  decide

/-- C2 counterexample: with `base == target == "USD"` and `amount == 0`
the code returns rate `1.0`, not NaN, so the claim fails as stated. -/
theorem c2_counterexample :
    fetch_conversion 0 "USD" "USD" (Except.ok ⟨some []⟩) =
      (Except.ok (0, RateVal.val 1), 0) ∧
    RateVal.val 1 ≠ RateVal.nan := by
  exact ⟨by decide, by decide⟩

/-- C2 amended: when `base ≠ target` and the response succeeds with a rate
entry for the target, `amount == 0` yields rate `NaN` (the division guard)
and no exception. -/
theorem c2_zero_amount_nan (base target : String) (data : ConvRespData)
    (v : ℚ) (hne : base ≠ target)
    (hv : lookup? (data.rates.getD []) target = some v) :
    fetch_conversion 0 base target (Except.ok data) =
      (Except.ok (v, RateVal.nan), 1) := by
  rw [fetch_conversion.eq_def, if_neg hne]
  simp [hv]

/-- Witness for C2's amended theorem at a concrete response. -/
theorem c2_zero_amount_nan_witness :
    fetch_conversion 0 "USD" "INR" (Except.ok ⟨some [("INR", 83)]⟩) =
      (Except.ok (83, RateVal.nan), 1) :=
  c2_zero_amount_nan "USD" "INR" ⟨some [("INR", 83)]⟩ 83 (by decide)
    (by decide)

theorem normalize_ccy_eq (s : String) :
    normalize_ccy s =
      if (pyUpper (pyStrip s)).length = 3 ∧
          pyIsAlphaStr (pyUpper (pyStrip s)) = true then
        Except.ok (pyUpper (pyStrip s))
      else Except.error AppError.validationError := by
  unfold normalize_ccy
  by_cases h3 : (pyUpper (pyStrip s)).length = 3 <;>
    cases hb : pyIsAlphaStr (pyUpper (pyStrip s)) <;>
      simp [h3, hb]

theorem pyIsAlphaStr_iff_of_length_pos (c : String) (h3 : c.length = 3) :
    pyIsAlphaStr c = true ↔ ∀ ch ∈ c.data, pyIsAlpha ch = true := by
  have h3' : c.data.length = 3 := h3
  have hne : c.data ≠ [] := by
    intro hnil
    rw [hnil] at h3'
    simp at h3'
  have hemp : c.data.isEmpty = false := by
    cases hd : c.data with
    | nil => exact absurd hd hne
    | cons a t => rfl
  unfold pyIsAlphaStr
  rw [Bool.and_eq_true, List.all_eq_true, hemp]
  simp

/-- C9: `normalize_ccy` strips surrounding whitespace and upper-cases its
input; it returns that string when it consists of exactly 3 alphabetic
characters and fails with a `ValueError` otherwise; in particular
`"usd "` is accepted as `"USD"` while `"US"` and `"US1"` are rejected. -/
theorem c9_normalize_ccy_spec (s : String) :
    (if (pyUpper (pyStrip s)).length = 3 ∧
        (∀ ch ∈ (pyUpper (pyStrip s)).data, pyIsAlpha ch = true) then
      normalize_ccy s = Except.ok (pyUpper (pyStrip s))
    else normalize_ccy s = Except.error AppError.validationError) ∧
    normalize_ccy "usd " = Except.ok "USD" ∧
    normalize_ccy "US" = Except.error AppError.validationError ∧
    normalize_ccy "US1" = Except.error AppError.validationError := by
  refine ⟨?_, by decide, by decide, by decide⟩
  rw [normalize_ccy_eq s]
  by_cases h3 : (pyUpper (pyStrip s)).length = 3
  · simp only [h3, true_and, pyIsAlphaStr_iff_of_length_pos _ h3]
    split <;> rfl
  · simp [h3]

/-- C10: `normalize_ccy` accepts 3-character inputs made entirely of
non-ASCII Latin-1 letters and returns them upper-cased: the format-only
validation is not restricted to the ASCII letters of ISO 4217 codes. -/
theorem c10_nonascii_letters_accepted :
    normalize_ccy "éûà" = Except.ok "ÉÛÀ" ∧
    (∀ c ∈ ("éûà" : String).data, 0x80 ≤ c.toNat ∧ pyIsAlpha c = true) ∧
    (∀ c ∈ ("ÉÛÀ" : String).data, 0x80 ≤ c.toNat ∧ pyIsAlpha c = true) := by
  exact ⟨by decide, by decide, by decide⟩

/-- C1: for every non-empty date-to-rate series, the period average equals
the arithmetic mean of all values except the last when the last date is
today and the series has more than one entry, and the arithmetic mean of
all values otherwise. -/
theorem c1_average_rule (rates : List (String × ℚ)) (today : String)
    (hne : rates ≠ []) :
    computeAvg rates today =
      if (rates.map Prod.fst).getLast? = some today ∧ 1 < rates.length then
        arithMean ((rates.map Prod.snd).dropLast)
      else arithMean (rates.map Prod.snd) := by
  clear hne
  unfold computeAvg arithMean
  simp only [List.length_dropLast, List.length_map]
  cases hl : (rates.map Prod.fst).getLast? with
  | none => simp [hl]
  | some last => simp [hl, beq_iff_eq]

/-- Witness for C1 on the specification's example series, with the last
date equal to today. -/
theorem c1_average_rule_witness :
    computeAvg
      [("2025-10-10", (10 : ℚ)), ("2025-10-11", 20), ("2025-10-12", 99)]
      "2025-10-12" =
      if ([("2025-10-10", (10 : ℚ)), ("2025-10-11", 20),
            ("2025-10-12", 99)].map Prod.fst).getLast? = some "2025-10-12" ∧
          1 < [("2025-10-10", (10 : ℚ)), ("2025-10-11", 20),
            ("2025-10-12", 99)].length then
        arithMean (([("2025-10-10", (10 : ℚ)), ("2025-10-11", 20),
          ("2025-10-12", 99)].map Prod.snd).dropLast)
      else
        arithMean ([("2025-10-10", (10 : ℚ)), ("2025-10-11", 20),
          ("2025-10-12", 99)].map Prod.snd) :=
  c1_average_rule _ _ (by decide)

theorem charListLe_total : ∀ as bs : List Char,
    charListLe as bs = true ∨ charListLe bs as = true
  | [], _ => Or.inl rfl
  | _ :: _, [] => Or.inr rfl
  | a :: as, b :: bs => by
    by_cases hab : a < b
    · exact Or.inl (by simp [charListLe, hab])
    · by_cases hba : b < a
      · exact Or.inr (by simp [charListLe, hba])
      · rcases charListLe_total as bs with h | h
        · exact Or.inl (by simp [charListLe, hab, hba, h])
        · exact Or.inr (by simp [charListLe, hba, hab, h])

theorem charListLe_trans : ∀ as bs cs : List Char,
    charListLe as bs = true → charListLe bs cs = true →
      charListLe as cs = true
  | [], _, _, _, _ => rfl
  | _ :: _, [], _, h1, _ => by simp [charListLe] at h1
  | _ :: _, _ :: _, [], _, h2 => by simp [charListLe] at h2
  | a :: as, b :: bs, c :: cs, h1, h2 => by
    simp only [charListLe] at h1 h2 ⊢
    by_cases hab : a < b
    · by_cases hbc : b < c
      · simp [lt_trans hab hbc]
      · by_cases hcb : c < b
        · simp [hbc, hcb] at h2
        · have hbc' : b = c := le_antisymm (not_lt.mp hcb) (not_lt.mp hbc)
          subst hbc'
          simp [hab]
    · by_cases hba : b < a
      · simp [hab, hba] at h1
      · have hab' : a = b := le_antisymm (not_lt.mp hba) (not_lt.mp hab)
        subst hab'
        simp only [lt_irrefl, if_false] at h1
        by_cases hac : a < c
        · simp [hac]
        · by_cases hca : c < a
          · simp [hac, hca] at h2
          · have hac' : a = c := le_antisymm (not_lt.mp hca) (not_lt.mp hac)
            subst hac'
            simp only [lt_irrefl, if_false] at h2 ⊢
            exact charListLe_trans as bs cs h1 h2

theorem charListLe_antisymm : ∀ as bs : List Char,
    charListLe as bs = true → charListLe bs as = true → as = bs
  | [], [], _, _ => rfl
  | [], _ :: _, _, h2 => by simp [charListLe] at h2
  | _ :: _, [], h1, _ => by simp [charListLe] at h1
  | a :: as, b :: bs, h1, h2 => by
    simp only [charListLe] at h1 h2
    by_cases hab : a < b
    · simp [lt_asymm hab, hab] at h2
    · by_cases hba : b < a
      · simp [hab, hba] at h1
      · have hab' : a = b := le_antisymm (not_lt.mp hba) (not_lt.mp hab)
        subst hab'
        simp only [lt_irrefl, if_false] at h1 h2
        rw [charListLe_antisymm as bs h1 h2]

/-- C6: on a response with a `rates` field whose day keys are unique (a
Python dict), a successful `fetch_timeseries` returns its keys in strictly
ascending (lexicographic, hence chronological for ISO dates) order, each
value being the requested target's rate for that day; days whose payload
lacks the target code are absent. -/
theorem c6_timeseries_sorted_and_filtered (target : String)
    (rmap : List (String × List (String × ℚ)))
    (hnd : (rmap.map Prod.fst).Nodup) (out : List (String × ℚ))
    (hok : (fetch_timeseries target (Except.ok ⟨some rmap⟩)).1 =
      Except.ok out) :
    ((out.map Prod.fst).Pairwise strLt) ∧
    (∀ d v, (d, v) ∈ out ↔
      ∃ p, lookup? rmap d = some p ∧ lookup? p target = some v) := by
  unfold fetch_timeseries at hok
  simp only at hok
  set days := List.insertionSort strLe (rmap.map Prod.fst) with hdays
  set f : String → Option (String × ℚ) := fun day =>
    (lookup? rmap day).bind (fun payload =>
      (lookup? payload target).map (fun v => (day, v))) with hf
  have hf1 : ∀ d p, f d = some p → p.1 = d := by
    intro d p hfd
    rw [hf] at hfd
    simp only at hfd
    obtain ⟨payload, -, hg⟩ := Option.bind_eq_some.mp hfd
    obtain ⟨v', -, hv'⟩ := Option.map_eq_some'.mp hg
    rw [← hv']
  by_cases hemp : (days.filterMap f).isEmpty
  · rw [if_pos hemp] at hok
    simp at hok
  · rw [if_neg hemp] at hok
    simp only [Except.ok.injEq] at hok
    have hout : out = days.filterMap f := hok.symm
    have hsorted_le : days.Pairwise strLe := by
      haveI : IsTotal String strLe :=
        ⟨fun a b => charListLe_total a.data b.data⟩
      haveI : IsTrans String strLe :=
        ⟨fun a b c => charListLe_trans a.data b.data c.data⟩
      exact List.sorted_insertionSort strLe (rmap.map Prod.fst)
    have hnd_days : days.Nodup :=
      ((List.perm_insertionSort strLe (rmap.map Prod.fst)).nodup_iff).mpr
        hnd
    have hsorted_lt : days.Pairwise strLt :=
      (List.Pairwise.and hsorted_le hnd_days).imp fun hh => hh
    have hsub : ((days.filterMap f).map Prod.fst).Sublist days :=
      map_fst_filterMap_sublist f hf1 days
    constructor
    · rw [hout]
      exact List.Pairwise.sublist hsub hsorted_lt
    · intro d v
      rw [hout, List.mem_filterMap]
      constructor
      · rintro ⟨day, -, hfd⟩
        have hday_eq : day = d := (hf1 day (d, v) hfd).symm
        subst hday_eq
        rw [hf] at hfd
        simp only at hfd
        obtain ⟨payload, hp, hg⟩ := Option.bind_eq_some.mp hfd
        obtain ⟨v', hv', heq⟩ := Option.map_eq_some'.mp hg
        obtain ⟨-, hv2⟩ := Prod.mk.injEq .. ▸ heq
        exact ⟨payload, hp, hv2 ▸ hv'⟩
      · rintro ⟨p, hp, hv⟩
        refine ⟨d, ?_, ?_⟩
        · exact ((List.perm_insertionSort strLe
            (rmap.map Prod.fst)).mem_iff).mpr (mem_keys_of_lookup? hp)
        · rw [hf]
          simp [hp, hv]

/-- C7: when no day's payload contains the requested target code, the
filtered result is empty and `fetch_timeseries` fails with a data error
instead of returning an empty mapping. -/
theorem c7_empty_history_dataError (target : String)
    (rmap : List (String × List (String × ℚ)))
    (h : ∀ d p, (d, p) ∈ rmap → lookup? p target = none) :
    fetch_timeseries target (Except.ok ⟨some rmap⟩) =
      (Except.error AppError.dataError, 1) := by
  unfold fetch_timeseries
  simp only
  have hnil : (List.insertionSort strLe (rmap.map Prod.fst)).filterMap
      (fun day => (lookup? rmap day).bind fun payload =>
        (lookup? payload target).map fun v => (day, v)) = [] := by
    rw [List.filterMap_eq_nil_iff]
    intro day hday
    cases hlk : lookup? rmap day with
    | none => simp [hlk]
    | some p =>
      have hm : (day, p) ∈ rmap := lookup?_mem hlk
      simp [hlk, h day p hm]
  simp [hnil]


/-- Witness for C6 on a concrete two-day response where one day lacks the
target code. -/
theorem c6_timeseries_sorted_and_filtered_witness :
    (([("2025-10-02", (83 : ℚ))].map Prod.fst).Pairwise strLt) ∧
    (∀ d v, (d, v) ∈ [("2025-10-02", (83 : ℚ))] ↔
      ∃ p, lookup? [("2025-10-02", [("USD", (83 : ℚ))]),
          ("2025-10-01", [("EUR", 1)])] d = some p ∧
        lookup? p "USD" = some v) :=
  c6_timeseries_sorted_and_filtered "USD"
    [("2025-10-02", [("USD", 83)]), ("2025-10-01", [("EUR", 1)])]
    (by decide) [("2025-10-02", 83)] (by decide)

/-- Witness for C7 on a concrete response none of whose days carries the
target code. -/
theorem c7_empty_history_dataError_witness :
    fetch_timeseries "USD"
      (Except.ok ⟨some [("2025-10-01", [("EUR", (1 : ℚ))])]⟩) =
      (Except.error AppError.dataError, 1) :=
  c7_empty_history_dataError "USD" [("2025-10-01", [("EUR", 1)])]
    (by
      intro d p hm
      rw [List.mem_singleton] at hm
      obtain ⟨h1, h2⟩ := Prod.mk.injEq .. ▸ hm
      subst h2
      decide)

theorem on_convert_trichotomy (env : Env) (inp : Inputs)
    (st : List OutputLine) :
    (on_convert env inp st).output = st ∨
    (∃ a b r t c, (on_convert env inp st).output = headerLines a b r t c) ∨
    (on_convert env inp st).dialog = none := by
  unfold on_convert
  split
  · exact Or.inl rfl
  · split
    · exact Or.inl rfl
    · split
      · exact Or.inl rfl
      · split
        · exact Or.inl rfl
        · split
          · exact Or.inl rfl
          · split
            · exact Or.inl rfl
            · split
              · exact Or.inr (Or.inl ⟨_, _, _, _, _, rfl⟩)
              · exact Or.inr (Or.inr rfl)

/-- C3 counterexample: a run whose first fetch succeeds and whose second
(timeseries) fetch fails ends with an error dialog, yet the text area is
not left as it was before the run: the header lines of the failed run have
been committed. -/
theorem c3_counterexample :
    (on_convert
        ⟨fun _ => some 100, fun _ => some 30,
          Except.ok ⟨some [("USD", 80)]⟩, Except.error (), "2025-10-12"⟩
        ⟨"100", "INR", "USD", "30"⟩ [OutputLine.closeCharts]).dialog =
      some Dialog.networkBox ∧
    (on_convert
        ⟨fun _ => some 100, fun _ => some 30,
          Except.ok ⟨some [("USD", 80)]⟩, Except.error (), "2025-10-12"⟩
        ⟨"100", "INR", "USD", "30"⟩
        [OutputLine.closeCharts]).output ≠ [OutputLine.closeCharts] := by
  exact ⟨by decide, by decide⟩

/-- C3 amended: a failing run leaves the text area either exactly as it
was (validation or first-fetch failure) or containing exactly the five
header lines of the current run (failure of the second, timeseries, fetch
after the widget was already cleared and rewritten). -/
theorem c3_failure_partial_output (env : Env) (inp : Inputs)
    (st : List OutputLine)
    (hfail : (on_convert env inp st).dialog.isSome = true) :
    (on_convert env inp st).output = st ∨
    ∃ a b r t c, (on_convert env inp st).output = headerLines a b r t c := by
  rcases on_convert_trichotomy env inp st with h | h | h
  · exact Or.inl h
  · exact Or.inr h
  · rw [h] at hfail
    exact absurd hfail (by simp)

/-- Witness for C3's amended theorem on a concrete run failing in the
second fetch. -/
theorem c3_failure_partial_output_witness :
    (on_convert
        ⟨fun _ => some 2, fun _ => some 30,
          Except.ok ⟨some [("USD", 166)]⟩, Except.error (), "2025-10-12"⟩
        ⟨"2", "INR", "USD", "30"⟩ []).output = [] ∨
    ∃ a b r t c,
      (on_convert
          ⟨fun _ => some 2, fun _ => some 30,
            Except.ok ⟨some [("USD", 166)]⟩, Except.error (), "2025-10-12"⟩
          ⟨"2", "INR", "USD", "30"⟩ []).output = headerLines a b r t c :=
  c3_failure_partial_output _ _ _ (by decide)

/-- C8: whenever any of the four validation steps fails (non-numeric
amount, invalid base code, invalid target code, non-integer days or
days < 1), the run performs zero network calls, leaves the text area
untouched, and reports through the blocking generic error dialog. -/
theorem c8_validation_before_network (env : Env) (inp : Inputs)
    (st : List OutputLine)
    (h : env.parseFloat inp.amount_str = none ∨
      normalize_ccy inp.base_str = Except.error AppError.validationError ∨
      normalize_ccy inp.target_str = Except.error AppError.validationError ∨
      parsedDays env inp = none ∨
      (∃ d, parsedDays env inp = some d ∧ d < 1)) :
    (on_convert env inp st).networkCalls = 0 ∧
    (on_convert env inp st).output = st ∧
    (on_convert env inp st).dialog = some Dialog.genericBox := by
  unfold on_convert
  split
  · exact ⟨rfl, rfl, rfl⟩
  · split
    · exact ⟨rfl, rfl, rfl⟩
    · split
      · exact ⟨rfl, rfl, rfl⟩
      · split
        · exact ⟨rfl, rfl, rfl⟩
        · split
          · exact ⟨rfl, rfl, rfl⟩
          · exfalso
            rcases h with h | h | h | h | ⟨d, hd₂, hlt₂⟩ <;> simp_all <;>
              omega

/-- Witness for C8 on a concrete run with an invalid (2-letter) base
code. -/
theorem c8_validation_before_network_witness :
    (on_convert
        ⟨fun _ => some 100, fun _ => some 30, Except.ok ⟨some []⟩,
          Except.ok ⟨some []⟩, "2025-10-12"⟩
        ⟨"100", "US", "USD", "30"⟩ []).networkCalls = 0 ∧
    (on_convert
        ⟨fun _ => some 100, fun _ => some 30, Except.ok ⟨some []⟩,
          Except.ok ⟨some []⟩, "2025-10-12"⟩
        ⟨"100", "US", "USD", "30"⟩ []).output = [] ∧
    (on_convert
        ⟨fun _ => some 100, fun _ => some 30, Except.ok ⟨some []⟩,
          Except.ok ⟨some []⟩, "2025-10-12"⟩
        ⟨"100", "US", "USD", "30"⟩ []).dialog = some Dialog.genericBox :=
  c8_validation_before_network _ _ _ (Or.inr (Or.inl (by decide)))

end Calibrator
